import Mathlib

/-!
Shallow embedding of `src/Challenge2.py` (Montana Counties License Plate
Lookup).

Strings are modelled as lists of Unicode code points (`Str := List Nat`);
the helper `strCodes` converts a Lean string literal into that form so that
concrete inputs stay readable.  The Python functions `str.lower`, `str.strip`,
`str.title`, `str.isalpha`, `str.replace(" ", "")`, `str.split(",")` and
`int(...)` are modelled on the ASCII fragment (the data of the program is ASCII).

The city dictionary is modelled as an ordered association list: Python
dicts preserve insertion order, and updating an existing key keeps its
original position, which `dirInsert` reproduces.  The value type
`PrefixVal` distinguishes Python `int` prefixes from string prefixes
(such as the sentinel "unknown"), since `3 != "3"` in Python.

File-reading functions take the file content as an argument (`Option`
marks a possibly missing file); exceptions are modelled with `Except`.
The interactive function `unknown_city` takes the sequence of strings the
user types and returns the final dictionary, the lines appended to the
user-store file, and the sequence of prompts issued; running out of inputs
stops the flow (Python would raise `EOFError` at the corresponding prompt).
-/

abbrev Str := List Nat

def strCodes (s : String) : Str := s.data.map Char.toNat

def isSpaceCode (n : Nat) : Bool :=
  n == 32 || n == 9 || n == 10 || n == 11 || n == 12 || n == 13

def isAlphaCode (n : Nat) : Bool :=
  (65 ≤ n && n ≤ 90) || (97 ≤ n && n ≤ 122)

def isDigitCode (n : Nat) : Bool := 48 ≤ n && n ≤ 57

def pyLowerChar (n : Nat) : Nat := if 65 ≤ n && n ≤ 90 then n + 32 else n

def pyUpperChar (n : Nat) : Nat := if 97 ≤ n && n ≤ 122 then n - 32 else n

/-- `s.lower()` on the ASCII fragment. -/
def pyLower (s : Str) : Str := s.map pyLowerChar

/-- `s.strip()`: drop leading and trailing whitespace. -/
def pyStrip (s : Str) : Str :=
  (((s.dropWhile isSpaceCode).reverse).dropWhile isSpaceCode).reverse

/-- `s.replace(" ", "")`: removes space characters only (code 32). -/
def removeSpaces (s : Str) : Str := s.filter (fun n => !(n == 32))

/-- `s.isalpha()`: true iff the string is nonempty and all-alphabetic. -/
def pyIsAlpha (s : Str) : Bool := !s.isEmpty && s.all isAlphaCode

def pyTitleGo : Bool → Str → Str
  | _, [] => []
  | prevAlpha, c :: r =>
      (if isAlphaCode c then (if prevAlpha then pyLowerChar c else pyUpperChar c) else c)
        :: pyTitleGo (isAlphaCode c) r

/-- `s.title()`: uppercase a letter after a non-letter, lowercase otherwise. -/
def pyTitle (s : Str) : Str := pyTitleGo false s

/-- `s.split(",")`: split on commas (code 44), keeping empty fields.
The result is always nonempty. -/
def pySplit : Str → List Str
  | [] => [[]]
  | c :: r =>
      if c = 44 then [] :: pySplit r
      else
        match pySplit r with
        | [] => [[c]]
        | h :: t => (c :: h) :: t

def digitVal (n : Nat) : Nat := n - 48

/-- Digits of `int(...)` after the first digit: Python allows a single
underscore (code 95) between digits. -/
def pyIntDigits : Nat → Str → Option Nat
  | acc, [] => some acc
  | acc, 95 :: r =>
      match r with
      | [] => none
      | d :: r2 => if isDigitCode d then pyIntDigits (10 * acc + digitVal d) r2 else none
  | acc, d :: r => if isDigitCode d then pyIntDigits (10 * acc + digitVal d) r else none

def pyIntNat (s : Str) : Option Nat :=
  match s with
  | [] => none
  | d :: r => if isDigitCode d then pyIntDigits (digitVal d) r else none

def pyIntCore (s : Str) : Option Int :=
  match s with
  | 43 :: r => (pyIntNat r).map Int.ofNat
  | 45 :: r => (pyIntNat r).map (fun n => -(Int.ofNat n))
  | _ => (pyIntNat s).map Int.ofNat

/-- `int(s)` for decimal strings: surrounding whitespace is stripped, an
optional sign, then digits with single underscores allowed between them;
`none` models `ValueError`. -/
def pyInt (s : Str) : Option Int := pyIntCore (pyStrip s)

/-- A stored license-plate prefix: a Python `int` (from the reference CSV)
or a Python string (from the user store or the "unknown" sentinel). -/
inductive PrefixVal where
  | int : Int → PrefixVal
  | str : Str → PrefixVal
deriving DecidableEq

/-- The in-memory `cities` dictionary, as an insertion-ordered association
list with unique keys. -/
abbrev Dir := List (Str × (Str × PrefixVal))

def dirGet : Dir → Str → Option (Str × PrefixVal)
  | [], _ => none
  | e :: r, k => if e.1 = k then some e.2 else dirGet r k

/-- `cities[k] = v`: overwrite in place if the key exists (Python dicts
keep the original insertion position), otherwise append. -/
def dirInsert : Dir → Str → Str × PrefixVal → Dir
  | [], k, v => [(k, v)]
  | e :: r, k, v => if e.1 = k then (k, v) :: r else e :: dirInsert r k v

def natDigitsAux : Nat → Nat → Str
  | 0, _ => []
  | f + 1, n => if n < 10 then [48 + n] else natDigitsAux f (n / 10) ++ [48 + n % 10]

def natDigits (n : Nat) : Str := natDigitsAux (n + 1) n

/-- `str(i)` for a Python int. -/
def intToStr (i : Int) : Str :=
  if i < 0 then 45 :: natDigits i.natAbs else natDigits i.natAbs

/-- How a prefix value is rendered by an f-string. -/
def prefixStr : PrefixVal → Str
  | .int i => intToStr i
  | .str s => s

def wY : Str := strCodes "y"
def wN : Str := strCodes "n"
def wUnknown : Str := strCodes "unknown"
def colCity : Str := strCodes "city"
def colCounty : Str := strCodes "county"
def colPfx : Str := strCodes "prefix"

/-- Python exceptions the program can raise. -/
inductive PyError where
  | fileNotFound | keyError | valueError | indexError | attributeError
deriving DecidableEq

/-- `row[col]` for a `csv.DictReader` row: the row is zipped with the
header; an absent column is a `KeyError`, a row shorter than the header
yields `None` for the trailing columns, so the subsequent `.strip()` or
`int(...)` raises (modelled as `attributeError`). -/
def rowGet (header row : List Str) (col : Str) : Except PyError Str :=
  match header.findIdx? (fun h => h == col) with
  | none => .error .keyError
  | some i =>
      match row.get? i with
      | some v => .ok v
      | none => .error .attributeError

/-- Processing of one reference-CSV data row: look the three columns up,
parse the prefix as an int, insert under the trimmed lowercased city. -/
def loadInitRow (header : List Str) (acc : Dir) (row : List Str) : Except PyError Dir :=
  match rowGet header row colCity with
  | .error e => .error e
  | .ok cityF =>
      match rowGet header row colCounty with
      | .error e => .error e
      | .ok countyF =>
          match rowGet header row colPfx with
          | .error e => .error e
          | .ok pfxF =>
              match pyInt pfxF with
              | none => .error .valueError
              | some n =>
                  .ok (dirInsert acc (pyLower (pyStrip cityF)) (pyStrip countyF, .int n))

def loadInitGo (header : List Str) : List (List Str) → Dir → Except PyError Dir
  | [], acc => .ok acc
  | row :: rest, acc =>
      match loadInitRow header acc row with
      | .error e => .error e
      | .ok acc2 => loadInitGo header rest acc2

/-- `load_initial_cities`: the CSV file is given as its parsed header and
data rows.  Per row: `city = row["city"].strip().lower()`,
`county = row["county"].strip()`, `prefix = int(row["prefix"])`,
`cities[city] = (county, prefix)`. -/
def load_initial_cities (header : List Str) (rows : List (List Str)) : Except PyError Dir :=
  loadInitGo header rows []

/-- Processing of one user-store line: strip it, skip it when empty,
split on commas (`parts[1]` raises `IndexError` on a single field),
default the prefix to the "unknown" sentinel on two fields. -/
def loadUserLine (cities : Dir) (l : Str) : Except PyError Dir :=
  let line := pyStrip l
  if line.isEmpty then .ok cities
  else
    match pySplit line with
    | [] => .error .indexError
    | [_] => .error .indexError
    | p0 :: p1 :: ps =>
        let city := pyLower (pyStrip p0)
        let county := pyStrip p1
        let pfx : PrefixVal :=
          match ps with
          | p2 :: _ => .str (pyStrip p2)
          | [] => .str wUnknown
        .ok (dirInsert cities city (county, pfx))

def loadUserGo : List Str → Dir → Except PyError Dir
  | [], cities => .ok cities
  | l :: rest, cities =>
      match loadUserLine cities l with
      | .error e => .error e
      | .ok d2 => loadUserGo rest d2

/-- `load_user_cities`: `none` models a missing file (`open` raises
`FileNotFoundError`); otherwise each line is stripped, empty lines are
skipped, the line is split on commas, `parts[1]` raises `IndexError` when
there is a single field, and the prefix defaults to the "unknown"
sentinel when there are only two fields. -/
def load_user_cities (file : Option (List Str)) (cities : Dir) : Except PyError Dir :=
  match file with
  | none => .error .fileNotFound
  | some lines => loadUserGo lines cities

/-- `validate_name`: False on the empty string, False when the string with
spaces removed fails `isalpha()` (which is also False on the empty
string), True otherwise. -/
def validate_name (name : Str) : Bool :=
  if name.isEmpty then false
  else if !(pyIsAlpha (removeSpaces name)) then false
  else true

/-- `lookup_city`: returns the found flag, the printed lines, and the
(unmodified) dictionary. -/
def lookup_city (city_name : Str) (cities : Dir) : Bool × List Str × Dir :=
  match dirGet cities (pyLower city_name) with
  | some cp =>
      (true,
       [pyTitle city_name ++ strCodes " is in " ++ cp.1 ++ strCodes " County (License Prefix "
          ++ prefixStr cp.2 ++ strCodes ")"],
       cities)
  | none => (false, [], cities)

/-- The scan in `unknown_city` looking for an existing county whose name
matches case-insensitively; returns the stored prefix of the first match. -/
def determine_pfx (county_name : Str) : Dir → Option PrefixVal
  | [] => none
  | e :: r =>
      if pyLower e.2.1 = pyLower county_name then some e.2.2
      else determine_pfx county_name r

/-- `prefix_to_use = existing_prefix if existing_prefix is not None else "unknown"`. -/
def prefix_to_use (county_name : Str) (cities : Dir) : PrefixVal :=
  match determine_pfx county_name cities with
  | some p => p
  | none => .str wUnknown

/-- The three questions `unknown_city` can put to the user. -/
inductive PromptTag where
  | askWantAdd | askCounty | askConfirm
deriving DecidableEq

/-- Control point of `unknown_city` just before reading one input:
the top of the outer loop, the county prompt, or the confirmation loop
(which carries the already-computed county name and prefix). -/
inductive FlowState where
  | wantAdd
  | county
  | confirmSt : Str → PrefixVal → FlowState

/-- The line `save_new_city` appends: `f"{city},{county},{prefix}"`. -/
def saveLine (city county : Str) (p : PrefixVal) : Str :=
  city ++ (44 :: (county ++ (44 :: prefixStr p)))

def runFlow (city_name : Str) : List Str → FlowState → Dir → Dir × List Str × List PromptTag
  | [], _, cities => (cities, [], [])
  | i :: rest, .wantAdd, cities =>
      let u := pyLower i
      if u = wN then (cities, [], [.askWantAdd])
      else if u = wY then
        let r := runFlow city_name rest .county cities
        (r.1, r.2.1, .askWantAdd :: r.2.2)
      else
        let r := runFlow city_name rest .wantAdd cities
        (r.1, r.2.1, .askWantAdd :: r.2.2)
  | c :: rest, .county, cities =>
      let county_name := pyTitle (pyStrip c)
      if validate_name county_name then
        let r := runFlow city_name rest (.confirmSt county_name (prefix_to_use county_name cities)) cities
        (r.1, r.2.1, .askCounty :: r.2.2)
      else
        let r := runFlow city_name rest .wantAdd cities
        (r.1, r.2.1, .askCounty :: r.2.2)
  | k :: rest, .confirmSt county_name p, cities =>
      let u := pyLower k
      if u = wY then
        (dirInsert cities (pyLower city_name) (county_name, p),
         [saveLine (pyLower city_name) county_name p],
         [.askConfirm])
      else if u = wN then
        let r := runFlow city_name rest .wantAdd cities
        (r.1, r.2.1, .askConfirm :: r.2.2)
      else
        let r := runFlow city_name rest (.confirmSt county_name p) cities
        (r.1, r.2.1, .askConfirm :: r.2.2)

/-- `unknown_city`: run the interactive add-entry flow on a script of user
inputs; result is (final dictionary, lines appended to the user store,
prompts issued in order). -/
def unknown_city (city_name : Str) (cities : Dir) (inputs : List Str) :
    Dir × List Str × List PromptTag :=
  runFlow city_name inputs .wantAdd cities

/-- Every key of the dictionary is lowercase-normalized. -/
def lowerKeys (d : Dir) : Prop := ∀ e ∈ d, pyLower e.1 = e.1

/-- A reference-CSV row is well formed when the three required columns are
present and covered by the row and its prefix field parses as an int. -/
def rowWellFormed (header row : List Str) : Bool :=
  match rowGet header row colCity, rowGet header row colCounty, rowGet header row colPfx with
  | .ok _, .ok _, .ok p => (pyInt p).isSome
  | _, _, _ => false

/-- The dictionary entry `kv` is the one a well-formed row produces:
key = trimmed lowercased city, value = (trimmed county, integer prefix). -/
def entryFromRow (header row : List Str) (kv : Str × (Str × PrefixVal)) : Prop :=
  ∃ cs co pf n,
    rowGet header row colCity = .ok cs ∧
    rowGet header row colCounty = .ok co ∧
    rowGet header row colPfx = .ok pf ∧
    pyInt pf = some n ∧
    kv = (pyLower (pyStrip cs), (pyStrip co, .int n))

theorem pyLowerChar_idem (n : Nat) : pyLowerChar (pyLowerChar n) = pyLowerChar n := by
  simp only [pyLowerChar]
  split
  · split
    · simp_all
      omega
    · rfl
  · rfl

theorem pyLower_idem (s : Str) : pyLower (pyLower s) = pyLower s := by
  induction s with
  | nil => rfl
  | cons a t ih =>
    simp only [pyLower, List.map_cons, List.map_map] at ih ⊢
    exact List.cons_eq_cons.mpr ⟨pyLowerChar_idem a, ih⟩

theorem dirGet_insert_self (d : Dir) (k : Str) (v : Str × PrefixVal) :
    dirGet (dirInsert d k v) k = some v := by
  induction d with
  | nil => simp [dirInsert, dirGet]
  | cons e r ih =>
    by_cases h : e.1 = k
    · simp [dirInsert, h, dirGet]
    · simp [dirInsert, h, dirGet, ih]

theorem dirGet_insert_ne (d : Dir) (k k2 : Str) (v : Str × PrefixVal) (h : k2 ≠ k) :
    dirGet (dirInsert d k v) k2 = dirGet d k2 := by
  induction d with
  | nil =>
    have hk2 : ¬ k = k2 := fun e2 => h e2.symm
    simp [dirInsert, dirGet, hk2]
  | cons e r ih =>
    by_cases he : e.1 = k
    · have hk2 : ¬ k = k2 := fun e2 => h e2.symm
      have he2 : ¬ e.1 = k2 := by rw [he]; exact hk2
      simp [dirInsert, he, dirGet, hk2, he2]
    · simp only [dirInsert, he, if_false, dirGet]
      by_cases h2 : e.1 = k2 <;> simp [h2, ih]

theorem dirInsert_mem {d : Dir} {k : Str} {v : Str × PrefixVal}
    {e : Str × (Str × PrefixVal)} (h : e ∈ dirInsert d k v) : e = (k, v) ∨ e ∈ d := by
  induction d with
  | nil => simpa [dirInsert] using h
  | cons e2 r ih =>
    by_cases he : e2.1 = k
    · simp only [dirInsert, he, if_true] at h
      rcases List.mem_cons.mp h with h | h
      · exact Or.inl h
      · exact Or.inr (List.mem_cons_of_mem _ h)
    · simp only [dirInsert, he, if_false] at h
      rcases List.mem_cons.mp h with h | h
      · exact Or.inr (h ▸ List.mem_cons_self _ _)
      · rcases ih h with h | h
        · exact Or.inl h
        · exact Or.inr (List.mem_cons_of_mem _ h)

theorem dirGet_insert_isSome (d : Dir) (k k2 : Str) (v : Str × PrefixVal)
    (h : (dirGet d k2).isSome) : (dirGet (dirInsert d k v) k2).isSome := by
  by_cases he : k2 = k
  · subst he; simp [dirGet_insert_self]
  · rwa [dirGet_insert_ne d k k2 v he]

theorem lowerKeys_insert {d : Dir} {k : Str} {v : Str × PrefixVal}
    (hd : lowerKeys d) (hk : pyLower k = k) : lowerKeys (dirInsert d k v) := by
  intro e he
  rcases dirInsert_mem he with h | h
  · subst h; exact hk
  · exact hd e h

theorem length_dropWhile_le (p : Nat → Bool) (l : Str) :
    (l.dropWhile p).length ≤ l.length := by
  induction l with
  | nil => simp
  | cons a t ih =>
    simp only [List.dropWhile_cons]
    split
    · exact Nat.le_succ_of_le ih
    · exact Nat.le_refl _

theorem dropWhile_eq_self_of_head (p : Nat → Bool) (l : Str)
    (h : ∀ a, l.head? = some a → p a = false) : l.dropWhile p = l := by
  cases l with
  | nil => rfl
  | cons b t =>
    have := h b rfl
    simp [List.dropWhile_cons, this]

theorem dropWhile_length_lt_of_head (p : Nat → Bool) (l : Str) (a : Nat)
    (h : l.head? = some a) (hp : p a = true) : (l.dropWhile p).length < l.length := by
  cases l with
  | nil => simp at h
  | cons b t =>
    have hb : b = a := by simpa using h
    subst hb
    simp only [List.dropWhile_cons, hp, if_true]
    exact Nat.lt_succ_of_le (length_dropWhile_le p t)

theorem pyStrip_length_le (l : Str) : (pyStrip l).length ≤ l.length := by
  unfold pyStrip
  calc ((((l.dropWhile isSpaceCode).reverse).dropWhile isSpaceCode).reverse).length
      = (((l.dropWhile isSpaceCode).reverse).dropWhile isSpaceCode).length := by
        simp
    _ ≤ ((l.dropWhile isSpaceCode).reverse).length := length_dropWhile_le _ _
    _ = (l.dropWhile isSpaceCode).length := by simp
    _ ≤ l.length := length_dropWhile_le _ _

theorem pyStrip_eq_self (l : Str)
    (hh : ∀ a, l.head? = some a → isSpaceCode a = false)
    (hl : ∀ a, l.getLast? = some a → isSpaceCode a = false) : pyStrip l = l := by
  unfold pyStrip
  rw [dropWhile_eq_self_of_head _ _ hh]
  rw [dropWhile_eq_self_of_head _ _ (fun a ha => hl a (by rwa [List.head?_reverse] at ha))]
  exact List.reverse_reverse l

theorem head_not_space_of_strip_self {l : Str} (h : pyStrip l = l) :
    ∀ a, l.head? = some a → isSpaceCode a = false := by
  intro a ha
  by_contra hc
  have hp : isSpaceCode a = true := by
    cases hb : isSpaceCode a
    · exact absurd hb hc
    · rfl
  have hlt : ((l.dropWhile isSpaceCode).length) < l.length :=
    dropWhile_length_lt_of_head _ _ _ ha hp
  have : (pyStrip l).length < l.length := by
    unfold pyStrip
    calc ((((l.dropWhile isSpaceCode).reverse).dropWhile isSpaceCode).reverse).length
        = (((l.dropWhile isSpaceCode).reverse).dropWhile isSpaceCode).length := by simp
      _ ≤ ((l.dropWhile isSpaceCode).reverse).length := length_dropWhile_le _ _
      _ = (l.dropWhile isSpaceCode).length := by simp
      _ < l.length := hlt
  rw [h] at this
  exact Nat.lt_irrefl _ this

theorem getLast_not_space_of_strip_self {l : Str} (h : pyStrip l = l) :
    ∀ a, l.getLast? = some a → isSpaceCode a = false := by
  intro a ha
  have hd : l.dropWhile isSpaceCode = l :=
    dropWhile_eq_self_of_head _ _ (head_not_space_of_strip_self h)
  have h2 : (l.reverse.dropWhile isSpaceCode).reverse = l := by
    unfold pyStrip at h; rwa [hd] at h
  have h3 : l.reverse.dropWhile isSpaceCode = l.reverse := by
    have := congrArg List.reverse h2
    rwa [List.reverse_reverse] at this
  by_contra hc
  have hp : isSpaceCode a = true := by
    cases hb : isSpaceCode a
    · exact absurd hb hc
    · rfl
  have hrev : l.reverse.head? = some a := by rwa [List.head?_reverse]
  have := dropWhile_length_lt_of_head isSpaceCode l.reverse a hrev hp
  rw [h3] at this
  exact Nat.lt_irrefl _ this

theorem pySplit_ne_nil (s : Str) : pySplit s ≠ [] := by
  cases s with
  | nil => simp [pySplit]
  | cons c r =>
    simp only [pySplit]
    split
    · simp
    · split <;> simp

theorem pySplit_no_comma (s : Str) (h : ¬ 44 ∈ s) : pySplit s = [s] := by
  induction s with
  | nil => rfl
  | cons a t ih =>
    have ha : ¬ a = 44 := fun e => h (by simp [e])
    have ht : ¬ 44 ∈ t := fun m => h (by simp [m])
    simp only [pySplit, ha, if_false, ih ht]

theorem pySplit_append (x y : Str) (h : ¬ 44 ∈ x) :
    pySplit (x ++ 44 :: y) = x :: pySplit y := by
  induction x with
  | nil => simp [pySplit]
  | cons a t ih =>
    have ha : ¬ a = 44 := fun e => h (by simp [e])
    have ht : ¬ 44 ∈ t := fun m => h (by simp [m])
    have hr : pySplit (t ++ 44 :: y) = t :: pySplit y := ih ht
    simp only [List.cons_append, pySplit, ha, if_false]
    rw [show List.append t (44 :: y) = t ++ 44 :: y from rfl, hr]

theorem pySplit_length_ge_two (s : Str) (h : 44 ∈ s) : 2 ≤ (pySplit s).length := by
  induction s with
  | nil => simp at h
  | cons a t ih =>
    by_cases ha : a = 44
    · simp only [pySplit, ha, if_true, List.length_cons]
      have := pySplit_ne_nil t
      have : 1 ≤ (pySplit t).length := List.length_pos.mpr this
      omega
    · have ht : 44 ∈ t := by
        rcases List.mem_cons.mp h with h2 | h2
        · exact absurd h2.symm ha
        · exact h2
      have h2 := ih ht
      simp only [pySplit, ha, if_false]
      rcases hs : pySplit t with _ | ⟨p, ps⟩
      · exact absurd hs (pySplit_ne_nil t)
      · rw [hs] at h2
        simpa using h2

theorem loadUserGo_append (a b : List Str) (d d1 : Dir) (h : loadUserGo a d = .ok d1) :
    loadUserGo (a ++ b) d = loadUserGo b d1 := by
  induction a generalizing d with
  | nil =>
    simp only [loadUserGo, Except.ok.injEq] at h
    subst h
    rfl
  | cons l rest ih =>
    simp only [List.cons_append, loadUserGo] at h ⊢
    rcases hl : loadUserLine d l with e | d2 <;> rw [hl] at h
    · exact Except.noConfusion h
    · exact ih _ h

theorem getLast?_saveLine_tail (cn pf : Str) (hspf : pyStrip pf = pf) :
    ∀ a, (44 :: (cn ++ (44 :: pf))).getLast? = some a → isSpaceCode a = false := by
  intro a ha
  by_cases hne : pf = []
  · subst hne
    have h1 : (44 :: (cn ++ (44 :: ([] : Str)))) = (44 :: cn) ++ [44] := by simp
    rw [h1, List.getLast?_concat] at ha
    cases ha
    rfl
  · have h1 : (44 :: (cn ++ (44 :: pf))) = ((44 :: cn) ++ [44]) ++ pf := by simp
    rw [h1, List.getLast?_append_of_ne_nil _ hne] at ha
    exact getLast_not_space_of_strip_self hspf a ha

theorem pyStrip_saveLine (lc cn pf : Str)
    (hslc : pyStrip lc = lc) (hspf : pyStrip pf = pf) (hne : lc ≠ []) :
    pyStrip (lc ++ (44 :: (cn ++ (44 :: pf)))) = lc ++ (44 :: (cn ++ (44 :: pf))) := by
  apply pyStrip_eq_self
  · intro a ha
    rcases lc with _ | ⟨b, t⟩
    · exact absurd rfl hne
    · simp only [List.cons_append, List.head?_cons, Option.some.injEq] at ha
      subst ha
      exact head_not_space_of_strip_self hslc _ rfl
  · intro a ha
    have hcons : (44 :: (cn ++ (44 :: pf))) ≠ ([] : Str) := List.cons_ne_nil _ _
    rw [List.getLast?_append_of_ne_nil _ hcons] at ha
    exact getLast?_saveLine_tail cn pf hspf a ha

theorem loadUserLine_saveLine (d : Dir) (lc cn : Str) (p : PrefixVal)
    (hslc : pyStrip lc = lc) (hscn : pyStrip cn = cn)
    (hspf : pyStrip (prefixStr p) = prefixStr p)
    (hclc : ¬ 44 ∈ lc) (hccn : ¬ 44 ∈ cn) (hcpf : ¬ 44 ∈ prefixStr p)
    (hne : lc ≠ []) :
    loadUserLine d (saveLine lc cn p) =
      .ok (dirInsert d (pyLower lc) (cn, .str (prefixStr p))) := by
  have hstrip : pyStrip (saveLine lc cn p) = lc ++ (44 :: (cn ++ (44 :: prefixStr p))) :=
    pyStrip_saveLine lc cn (prefixStr p) hslc hspf hne
  have hsplit : pySplit (lc ++ (44 :: (cn ++ (44 :: prefixStr p)))) = [lc, cn, prefixStr p] := by
    rw [pySplit_append _ _ hclc, pySplit_append _ _ hccn, pySplit_no_comma _ hcpf]
  have hempty : (lc ++ (44 :: (cn ++ (44 :: prefixStr p)))).isEmpty = false := by
    rcases lc with _ | ⟨b, t⟩
    · rfl
    · rfl
  simp only [loadUserLine, saveLine] at hstrip ⊢
  rw [hstrip, hempty, hsplit]
  simp only [Bool.false_eq_true, if_false]
  rw [hslc, hscn, hspf]

theorem loadUserGo_saveLine (d : Dir) (lc cn : Str) (p : PrefixVal)
    (hslc : pyStrip lc = lc) (hscn : pyStrip cn = cn)
    (hspf : pyStrip (prefixStr p) = prefixStr p)
    (hclc : ¬ 44 ∈ lc) (hccn : ¬ 44 ∈ cn) (hcpf : ¬ 44 ∈ prefixStr p)
    (hne : lc ≠ []) :
    loadUserGo [saveLine lc cn p] d =
      .ok (dirInsert d (pyLower lc) (cn, .str (prefixStr p))) := by
  have h1 := loadUserLine_saveLine d lc cn p hslc hscn hspf hclc hccn hcpf hne
  simp only [loadUserGo, h1]

theorem flow_commit (city : Str) (d : Dir) (i1 c i3 : Str)
    (h1 : pyLower i1 = wY) (hv : validate_name (pyTitle (pyStrip c)) = true)
    (h3 : pyLower i3 = wY) :
    unknown_city city d [i1, c, i3] =
      (dirInsert d (pyLower city)
         (pyTitle (pyStrip c), prefix_to_use (pyTitle (pyStrip c)) d),
       [saveLine (pyLower city) (pyTitle (pyStrip c))
          (prefix_to_use (pyTitle (pyStrip c)) d)],
       [PromptTag.askWantAdd, PromptTag.askCounty, PromptTag.askConfirm]) := by
  have hyn : ¬ (wY = wN) := by decide
  simp [unknown_city, runFlow, h1, h3, hv, hyn]

theorem determine_pfx_eq_find (cn : Str) (d : Dir) :
    determine_pfx cn d =
      (d.find? (fun e => pyLower e.2.1 == pyLower cn)).map (fun e => e.2.2) := by
  induction d with
  | nil => rfl
  | cons e r ih =>
    simp only [determine_pfx, List.find?]
    by_cases h : pyLower e.2.1 = pyLower cn
    · have hb : (pyLower e.2.1 == pyLower cn) = true := by simp [h]
      simp [h, hb]
    · have hb : (pyLower e.2.1 == pyLower cn) = false := by simp [h]
      simp [h, hb, ih]

theorem loadInitRow_ok {header : List Str} {acc : Dir} {row : List Str} {acc2 : Dir}
    (h : loadInitRow header acc row = .ok acc2) :
    ∃ cs co pf n,
      rowGet header row colCity = .ok cs ∧
      rowGet header row colCounty = .ok co ∧
      rowGet header row colPfx = .ok pf ∧
      pyInt pf = some n ∧
      acc2 = dirInsert acc (pyLower (pyStrip cs)) (pyStrip co, .int n) := by
  unfold loadInitRow at h
  split at h
  · exact Except.noConfusion h
  rename_i cs h1
  split at h
  · exact Except.noConfusion h
  rename_i co h2
  split at h
  · exact Except.noConfusion h
  rename_i pf h3
  split at h
  · exact Except.noConfusion h
  rename_i n h4
  cases h
  exact ⟨cs, co, pf, n, h1, h2, h3, h4, rfl⟩

theorem loadUserLine_ok {d : Dir} {l : Str} {d2 : Dir}
    (h : loadUserLine d l = .ok d2) :
    d2 = d ∨ ∃ p0 p1 ps, pySplit (pyStrip l) = p0 :: p1 :: ps ∧
      d2 = dirInsert d (pyLower (pyStrip p0))
        (pyStrip p1,
         match ps with
         | p2 :: _ => PrefixVal.str (pyStrip p2)
         | [] => PrefixVal.str wUnknown) := by
  simp only [loadUserLine] at h
  split at h
  · cases h
    exact Or.inl rfl
  · split at h
    · exact Except.noConfusion h
    · exact Except.noConfusion h
    · rename_i p0 p1 ps hs
      cases h
      exact Or.inr ⟨p0, p1, ps, hs, rfl⟩

theorem loadInitGo_lowerKeys (header : List Str) :
    ∀ (rows : List (List Str)) (acc d : Dir), lowerKeys acc →
      loadInitGo header rows acc = .ok d → lowerKeys d := by
  intro rows
  induction rows with
  | nil =>
    intro acc d ha h
    simp only [loadInitGo, Except.ok.injEq] at h
    subst h
    exact ha
  | cons row rest ih =>
    intro acc d ha h
    simp only [loadInitGo] at h
    rcases hr : loadInitRow header acc row with e | acc2 <;> rw [hr] at h
    · exact Except.noConfusion h
    · rcases loadInitRow_ok hr with ⟨cs, co, pf, n, _, _, _, _, hacc2⟩
      subst hacc2
      exact ih _ d (lowerKeys_insert ha (pyLower_idem (pyStrip cs))) h

theorem loadUserGo_lowerKeys :
    ∀ (lines : List Str) (acc d : Dir), lowerKeys acc →
      loadUserGo lines acc = .ok d → lowerKeys d := by
  intro lines
  induction lines with
  | nil =>
    intro acc d ha h
    simp only [loadUserGo, Except.ok.injEq] at h
    subst h
    exact ha
  | cons l rest ih =>
    intro acc d ha h
    simp only [loadUserGo] at h
    rcases hl : loadUserLine acc l with e | d2 <;> rw [hl] at h
    · exact Except.noConfusion h
    · rcases loadUserLine_ok hl with hd2 | ⟨p0, p1, ps, _, hd2⟩ <;> subst hd2
      · exact ih _ d ha h
      · exact ih _ d (lowerKeys_insert ha (pyLower_idem (pyStrip p0))) h

theorem runFlow_lowerKeys (city : Str) :
    ∀ (inputs : List Str) (s : FlowState) (d : Dir), lowerKeys d →
      lowerKeys (runFlow city inputs s d).1 := by
  intro inputs
  induction inputs with
  | nil =>
    intro s d h
    cases s <;> exact h
  | cons i rest ih =>
    intro s d h
    cases s with
    | wantAdd =>
      simp only [runFlow]
      split
      · exact h
      · split
        · exact ih .county d h
        · exact ih .wantAdd d h
    | county =>
      simp only [runFlow]
      split
      · exact ih _ d h
      · exact ih .wantAdd d h
    | confirmSt cn p =>
      simp only [runFlow]
      split
      · exact lowerKeys_insert h (pyLower_idem city)
      · split
        · exact ih .wantAdd d h
        · exact ih _ d h

theorem validate_name_false_iff (s : Str) :
    validate_name s = false ↔
      removeSpaces s = [] ∨ ∃ n ∈ removeSpaces s, isAlphaCode n = false := by
  by_cases hs : s = []
  · subst hs
    simp [validate_name, removeSpaces]
  · have he : s.isEmpty = false := by
      cases s
      · exact absurd rfl hs
      · rfl
    simp only [validate_name, he, Bool.false_eq_true, if_false]
    cases hp : pyIsAlpha (removeSpaces s) with
    | false =>
      have hrhs : removeSpaces s = [] ∨ ∃ n ∈ removeSpaces s, isAlphaCode n = false := by
        unfold pyIsAlpha at hp
        rcases Bool.and_eq_false_iff.mp hp with h1 | h1
        · left
          have h2 : (removeSpaces s).isEmpty = true := by
            cases hb : (removeSpaces s).isEmpty
            · rw [hb] at h1; exact Bool.noConfusion h1
            · rfl
          exact List.isEmpty_iff.mp h2
        · right
          rcases List.all_eq_false.mp h1 with ⟨n, hn, hna⟩
          refine ⟨n, hn, ?_⟩
          cases hb : isAlphaCode n
          · rfl
          · exact absurd hb hna
      simp [hp, hrhs]
    | true =>
      have hno : ¬(removeSpaces s = [] ∨ ∃ n ∈ removeSpaces s, isAlphaCode n = false) := by
        unfold pyIsAlpha at hp
        rw [Bool.and_eq_true] at hp
        rcases hp with ⟨h1, h2⟩
        intro hcon
        rcases hcon with hcon | ⟨n, hn, hna⟩
        · rw [hcon] at h1
          exact Bool.noConfusion h1
        · have := List.all_eq_true.mp h2 n hn
          rw [hna] at this
          exact Bool.noConfusion this
      simp [hp, hno]

theorem loadUserLine_noComma (d : Dir) (l : Str)
    (hne : pyStrip l ≠ []) (hnc : ¬ 44 ∈ pyStrip l) :
    loadUserLine d l = .error .indexError := by
  have hempty : (pyStrip l).isEmpty = false := by
    cases h : pyStrip l
    · exact absurd h hne
    · rfl
  simp only [loadUserLine, hempty, Bool.false_eq_true, if_false, pySplit_no_comma _ hnc]

theorem loadUserLine_error {d : Dir} {l : Str} {e : PyError}
    (h : loadUserLine d l = .error e) : e = .indexError := by
  simp only [loadUserLine] at h
  split at h
  · exact Except.noConfusion h
  · split at h
    · cases h; rfl
    · cases h; rfl
    · exact Except.noConfusion h

theorem loadUserLine_ok_exists (d : Dir) (l : Str)
    (h : pyStrip l = [] ∨ 2 ≤ (pySplit (pyStrip l)).length) :
    ∃ d2, loadUserLine d l = .ok d2 := by
  by_cases he : (pyStrip l).isEmpty
  · exact ⟨d, by simp [loadUserLine, he]⟩
  · have he2 : (pyStrip l).isEmpty = false := by
      cases hb : (pyStrip l).isEmpty
      · rfl
      · exact absurd hb he
    rcases h with h | h
    · rw [h] at he2
      exact Bool.noConfusion he2
    · rcases hs : pySplit (pyStrip l) with _ | ⟨p0, ps⟩
      · rw [hs] at h; simp at h
      rcases ps with _ | ⟨p1, ps2⟩
      · rw [hs] at h; simp at h
      · rcases ps2 with _ | ⟨p2, ps3⟩
        · refine ⟨dirInsert d (pyLower (pyStrip p0)) (pyStrip p1, PrefixVal.str wUnknown), ?_⟩
          simp only [loadUserLine, he2, Bool.false_eq_true, if_false, hs]
        · refine ⟨dirInsert d (pyLower (pyStrip p0)) (pyStrip p1, PrefixVal.str (pyStrip p2)), ?_⟩
          simp only [loadUserLine, he2, Bool.false_eq_true, if_false, hs]

theorem loadUserGo_error_of_badline :
    ∀ (lines : List Str) (d : Dir), (∃ l ∈ lines, pyStrip l ≠ [] ∧ ¬ 44 ∈ pyStrip l) →
      loadUserGo lines d = .error .indexError := by
  intro lines
  induction lines with
  | nil =>
    intro d h
    rcases h with ⟨l, hl, _⟩
    exact absurd hl (List.not_mem_nil _)
  | cons l0 rest ih =>
    intro d h
    simp only [loadUserGo]
    rcases hstep : loadUserLine d l0 with e | d2
    · rw [loadUserLine_error hstep]
    · rcases h with ⟨l, hl, hne, hnc⟩
      rcases List.mem_cons.mp hl with rfl | hl2
      · rw [loadUserLine_noComma d l hne hnc] at hstep
        exact Except.noConfusion hstep
      · exact ih d2 ⟨l, hl2, hne, hnc⟩

theorem loadUserGo_ok_of_all :
    ∀ (lines : List Str) (d : Dir),
      (∀ l ∈ lines, pyStrip l ≠ [] → 2 ≤ (pySplit (pyStrip l)).length) →
      ∃ d2, loadUserGo lines d = .ok d2 := by
  intro lines
  induction lines with
  | nil =>
    intro d _
    exact ⟨d, rfl⟩
  | cons l0 rest ih =>
    intro d h
    have hl0 : pyStrip l0 = [] ∨ 2 ≤ (pySplit (pyStrip l0)).length := by
      by_cases hz : pyStrip l0 = []
      · exact Or.inl hz
      · exact Or.inr (h l0 (List.mem_cons_self _ _) hz)
    rcases loadUserLine_ok_exists d l0 hl0 with ⟨d2, hstep⟩
    rcases ih d2 (fun l hl hz => h l (List.mem_cons_of_mem _ hl) hz) with ⟨d3, hgo⟩
    refine ⟨d3, ?_⟩
    simp only [loadUserGo, hstep]
    exact hgo

theorem rowGet_keyError {header : List Str} {col : Str} (row : List Str)
    (h : header.findIdx? (fun x => x == col) = none) :
    rowGet header row col = .error .keyError := by
  unfold rowGet
  rw [h]

theorem loadInitRow_error_of_missing {header : List Str} (acc : Dir) (row : List Str)
    (h : header.findIdx? (fun x => x == colCity) = none ∨
         header.findIdx? (fun x => x == colCounty) = none ∨
         header.findIdx? (fun x => x == colPfx) = none) :
    ∃ e, loadInitRow header acc row = .error e := by
  unfold loadInitRow
  rcases hc : rowGet header row colCity with e | cs
  · exact ⟨e, rfl⟩
  rcases h with h | h
  · rw [rowGet_keyError row h] at hc
    exact Except.noConfusion hc
  rcases hco : rowGet header row colCounty with e | co
  · exact ⟨e, rfl⟩
  rcases h with h | h
  · rw [rowGet_keyError row h] at hco
    exact Except.noConfusion hco
  rcases hpf : rowGet header row colPfx with e | pf
  · exact ⟨e, rfl⟩
  · rw [rowGet_keyError row h] at hpf
    exact Except.noConfusion hpf

theorem loadInitRow_error_of_badpfx {header : List Str} (acc : Dir) (row : List Str)
    (pf : Str) (hpf : rowGet header row colPfx = .ok pf) (hbad : pyInt pf = none) :
    ∃ e, loadInitRow header acc row = .error e := by
  unfold loadInitRow
  rcases hc : rowGet header row colCity with e | cs
  · exact ⟨e, rfl⟩
  rcases hco : rowGet header row colCounty with e | co
  · exact ⟨e, rfl⟩
  refine ⟨.valueError, ?_⟩
  simp [hpf, hbad]

theorem loadInitRow_ok_of_wf {header row : List Str}
    (hwf : rowWellFormed header row = true) (acc : Dir) :
    ∃ acc2, loadInitRow header acc row = .ok acc2 := by
  unfold rowWellFormed at hwf
  split at hwf
  · rename_i cs co pf hcs hco hpf
    rcases Option.isSome_iff_exists.mp hwf with ⟨n, hn⟩
    refine ⟨dirInsert acc (pyLower (pyStrip cs)) (pyStrip co, .int n), ?_⟩
    unfold loadInitRow
    simp [hcs, hco, hpf, hn]
  · exact Bool.noConfusion hwf

theorem loadInitGo_wf (header : List Str) :
    ∀ (rows : List (List Str)) (acc : Dir),
      (∀ row ∈ rows, rowWellFormed header row = true) →
      ∃ d, loadInitGo header rows acc = .ok d ∧
        (∀ kv ∈ d, kv ∈ acc ∨ ∃ row ∈ rows, entryFromRow header row kv) ∧
        (∀ k, (dirGet acc k).isSome → (dirGet d k).isSome) ∧
        (∀ row ∈ rows, ∃ cs, rowGet header row colCity = .ok cs ∧
           (dirGet d (pyLower (pyStrip cs))).isSome) := by
  intro rows
  induction rows with
  | nil =>
    intro acc _
    exact ⟨acc, rfl, fun kv hkv => Or.inl hkv, fun k hk => hk,
           fun row hrow => absurd hrow (List.not_mem_nil _)⟩
  | cons row rest ih =>
    intro acc h
    have hwf := h row (List.mem_cons_self _ _)
    rcases loadInitRow_ok_of_wf hwf acc with ⟨acc2, hstep⟩
    rcases loadInitRow_ok hstep with ⟨cs, co, pf, n, hcs, hco, hpf, hn, hacc2⟩
    rcases ih acc2 (fun r hr => h r (List.mem_cons_of_mem _ hr)) with ⟨d, hgo, hsound, hpres, hcompl⟩
    refine ⟨d, ?_, ?_, ?_, ?_⟩
    · simp only [loadInitGo, hstep]
      exact hgo
    · intro kv hkv
      rcases hsound kv hkv with hkv2 | ⟨r, hr, he⟩
      · subst hacc2
        rcases dirInsert_mem hkv2 with he | he
        · exact Or.inr ⟨row, List.mem_cons_self _ _, cs, co, pf, n, hcs, hco, hpf, hn, he⟩
        · exact Or.inl he
      · exact Or.inr ⟨r, List.mem_cons_of_mem _ hr, he⟩
    · intro k hk
      apply hpres
      subst hacc2
      exact dirGet_insert_isSome _ _ _ _ hk
    · intro r hr
      rcases List.mem_cons.mp hr with hr2 | hr2
      · subst hr2
        refine ⟨cs, hcs, ?_⟩
        apply hpres
        subst hacc2
        simp [dirGet_insert_self]
      · exact hcompl r hr2

theorem loadInitGo_error_of_badrow (header : List Str) :
    ∀ (rows : List (List Str)) (acc : Dir),
      (∃ row ∈ rows, ∃ pf, rowGet header row colPfx = .ok pf ∧ pyInt pf = none) →
      ∃ e, loadInitGo header rows acc = .error e := by
  intro rows
  induction rows with
  | nil =>
    intro acc h
    rcases h with ⟨row, hrow, _⟩
    exact absurd hrow (List.not_mem_nil _)
  | cons r rest ih =>
    intro acc h
    rcases hstep : loadInitRow header acc r with e | acc2
    · exact ⟨e, by simp only [loadInitGo, hstep]⟩
    · rcases h with ⟨row, hrow, pf, hpf, hbad⟩
      rcases List.mem_cons.mp hrow with rfl | hrow2
      · rcases loadInitRow_error_of_badpfx acc row pf hpf hbad with ⟨e, he⟩
        rw [hstep] at he
        exact Except.noConfusion he
      · rcases ih acc2 ⟨row, hrow2, pf, hpf, hbad⟩ with ⟨e, he⟩
        refine ⟨e, ?_⟩
        simp only [loadInitGo, hstep]
        exact he

/-- Claim C3, code_bug evidence: the spec says a failed county validation
loops back to ASK_COUNTY and that "n" at CONFIRM goes back to ASK_COUNTY,
never to ASK_WANT_ADD.  In the code both `continue` (after failed
validation) and `break` out of the confirmation loop land at the top of
the outer `while True`, which re-issues the initial "Would you like to
make a new entry" question.  The comment the code itself carries on the CONFIRM "n"
branch (Re-enter county name) documents the intent of the spec.  Run on the
script y, "123" (invalid), n the third prompt issued is ASK_WANT_ADD, and
on y, "Missoula", n (at confirm), n the fourth prompt is ASK_WANT_ADD. -/
theorem c3_flow_returns_to_ask_want_add :
    (unknown_city (strCodes "Lolo")
        [(strCodes "missoula", (strCodes "Missoula", PrefixVal.int 3))]
        [strCodes "y", strCodes "123", strCodes "n"]).2.2 =
      [PromptTag.askWantAdd, PromptTag.askCounty, PromptTag.askWantAdd] ∧
    (unknown_city (strCodes "Lolo")
        [(strCodes "missoula", (strCodes "Missoula", PrefixVal.int 3))]
        [strCodes "y", strCodes "Missoula", strCodes "n", strCodes "n"]).2.2 =
      [PromptTag.askWantAdd, PromptTag.askCounty, PromptTag.askConfirm,
       PromptTag.askWantAdd] := by
  decide

/-- Claim C4, counterexample: the claim says the User-Store Loader treats
a missing file as empty and never raises; the code opens the file for
reading unconditionally, so a missing file raises FileNotFoundError and
the loader does not return the (empty) directory unchanged. -/
theorem c4_counterexample :
    load_user_cities none ([] : Dir) = .error .fileNotFound ∧
    load_user_cities none ([] : Dir) ≠ .ok ([] : Dir) := by
  constructor
  · rfl
  · intro h
    exact Except.noConfusion h

/-- Claim C4, amended: for every directory, calling the User-Store Loader
with a missing file raises FileNotFoundError (the tolerant
treat-as-empty semantics the contract asks for is not implemented). -/
theorem c4_user_loader_missing_file_raises (d : Dir) :
    load_user_cities none d = .error .fileNotFound := rfl

/-- Claim C5: for a city key present in the directory, looking up any
string that lowercases to that key prints
"<City Title Case> is in <County> County (License Prefix <prefix>)" with
the exact stored county and prefix and returns True; for a string whose
lowercasing is not a key it returns False, prints nothing, and the
directory is unchanged in both cases. -/
theorem c5_lookup_engine (s : Str) (cities : Dir) :
    (∀ co p, dirGet cities (pyLower s) = some (co, p) →
       lookup_city s cities =
         (true,
          [pyTitle s ++ strCodes " is in " ++ co ++ strCodes " County (License Prefix "
             ++ prefixStr p ++ strCodes ")"],
          cities)) ∧
    (dirGet cities (pyLower s) = none → lookup_city s cities = (false, [], cities)) := by
  constructor
  · intro co p h
    simp [lookup_city, h]
  · intro h
    simp [lookup_city, h]

/-- Witness for C5: the stored Missoula record is found under the
all-caps query and displayed with title case, county and prefix; a miss
returns False with no output and the same directory. -/
theorem c5_witness :
    lookup_city (strCodes "MISSOULA")
        [(strCodes "missoula", (strCodes "Missoula", PrefixVal.int 3))] =
      (true, [strCodes "Missoula is in Missoula County (License Prefix 3)"],
       [(strCodes "missoula", (strCodes "Missoula", PrefixVal.int 3))]) ∧
    lookup_city (strCodes "Atlantis")
        [(strCodes "missoula", (strCodes "Missoula", PrefixVal.int 3))] =
      (false, [], [(strCodes "missoula", (strCodes "Missoula", PrefixVal.int 3))]) := by
  constructor
  · have h := (c5_lookup_engine (strCodes "MISSOULA")
        [(strCodes "missoula", (strCodes "Missoula", PrefixVal.int 3))]).1
        (strCodes "Missoula") (PrefixVal.int 3) (by decide)
    rw [h]
    decide
  · exact (c5_lookup_engine (strCodes "Atlantis")
        [(strCodes "missoula", (strCodes "Missoula", PrefixVal.int 3))]).2 (by decide)

/-- Claim C6, counterexample: the claim says the Validator reports
invalid exactly when the string is empty or its space-free form contains
a non-alphabetic character.  The all-space string " " is rejected by the
code (isalpha() of the empty string is False) although it is nonempty and
its space-free form contains no character at all. -/
theorem c6_counterexample :
    validate_name (strCodes " ") = false ∧
    ¬(strCodes " " = [] ∨ ∃ n ∈ removeSpaces (strCodes " "), isAlphaCode n = false) := by
  decide

/-- Claim C6, amended: the Validator reports invalid (returning False,
never raising) exactly when the string with all spaces removed is empty
(which covers the empty string and all-space strings) or contains a
non-alphabetic character; in particular any string containing a
non-alphabetic character other than a space is invalid. -/
theorem c6_validator (s : Str) :
    (validate_name s = false ↔
      removeSpaces s = [] ∨ ∃ n ∈ removeSpaces s, isAlphaCode n = false) ∧
    (∀ n ∈ s, isAlphaCode n = false → n ≠ 32 → validate_name s = false) := by
  refine ⟨validate_name_false_iff s, ?_⟩
  intro n hn hna hn32
  refine (validate_name_false_iff s).mpr (Or.inr ⟨n, ?_, hna⟩)
  refine List.mem_filter.mpr ⟨hn, ?_⟩
  simp [hn32]

/-- Witness for C6: the string "a1b" contains the digit 1 (code 49), so
the Validator rejects it. -/
theorem c6_validator_witness :
    validate_name (strCodes "a1b") = false :=
  (c6_validator (strCodes "a1b")).2 49 (by decide) (by decide) (by decide)

/-- Claim C7: answering "n" (case-insensitively) at the initial
ASK_WANT_ADD prompt of the entry flow terminates it at once: the
directory is returned unchanged and no line is appended to the user
store, whatever directory, city and remaining input. -/
theorem c7_decline_no_mutation (city : Str) (cities : Dir) (i : Str) (rest : List Str)
    (h : pyLower i = wN) :
    unknown_city city cities (i :: rest) = (cities, [], [PromptTag.askWantAdd]) := by
  simp [unknown_city, runFlow, h]

/-- Witness for C7: declining with "N" on the Atlantis miss leaves the
one-entry directory untouched and writes nothing. -/
theorem c7_witness :
    unknown_city (strCodes "Atlantis")
        [(strCodes "missoula", (strCodes "Missoula", PrefixVal.int 3))] [strCodes "N"] =
      ([(strCodes "missoula", (strCodes "Missoula", PrefixVal.int 3))], [],
       [PromptTag.askWantAdd]) :=
  c7_decline_no_mutation _ _ _ _ (by decide)

/-- Claim C10: a non-empty user-store line with no comma makes the loader
raise IndexError when it accesses the county field (it neither skips the
line nor warns), and a file whose non-empty lines all split into at least
two fields loads without error. -/
theorem c10_user_loader_single_field (lines : List Str) (d : Dir) :
    ((∃ l ∈ lines, pyStrip l ≠ [] ∧ ¬ 44 ∈ pyStrip l) →
       load_user_cities (some lines) d = .error .indexError) ∧
    ((∀ l ∈ lines, pyStrip l ≠ [] → 2 ≤ (pySplit (pyStrip l)).length) →
       ∃ d2, load_user_cities (some lines) d = .ok d2) := by
  constructor
  · intro h
    exact loadUserGo_error_of_badline lines d h
  · intro h
    exact loadUserGo_ok_of_all lines d h

/-- Witness for C10: the single-field line "lolo" raises IndexError; the
well-formed line "lolo,Missoula,3" loads fine. -/
theorem c10_witness :
    load_user_cities (some [strCodes "lolo"]) ([] : Dir) = .error .indexError ∧
    ∃ d2, load_user_cities (some [strCodes "lolo,Missoula,3"]) ([] : Dir) = .ok d2 :=
  ⟨(c10_user_loader_single_field [strCodes "lolo"] []).1
     ⟨strCodes "lolo", by decide, by decide, by decide⟩,
   (c10_user_loader_single_field [strCodes "lolo,Missoula,3"] []).2 (by decide)⟩

/-- Claim C2: when the flow commits on script y, county, y, the new
stored prefix of the new city is the prefix of the first directory value (in scan
order) whose county matches the confirmed county name
case-insensitively, and the exact string sentinel "unknown" when no value
matches; `determine_pfx` is literally the scan of the code and the third
conjunct identifies it with the first match under `List.find?`. -/
theorem c2_prefix_inference (cities : Dir) (city i1 c i3 : Str)
    (h1 : pyLower i1 = wY) (hv : validate_name (pyTitle (pyStrip c)) = true)
    (h3 : pyLower i3 = wY) :
    (∀ q, determine_pfx (pyTitle (pyStrip c)) cities = some q →
       dirGet (unknown_city city cities [i1, c, i3]).1 (pyLower city) =
         some (pyTitle (pyStrip c), q)) ∧
    (determine_pfx (pyTitle (pyStrip c)) cities = none →
       dirGet (unknown_city city cities [i1, c, i3]).1 (pyLower city) =
         some (pyTitle (pyStrip c), PrefixVal.str wUnknown)) ∧
    determine_pfx (pyTitle (pyStrip c)) cities =
      (cities.find? (fun e => pyLower e.2.1 == pyLower (pyTitle (pyStrip c)))).map
        (fun e => e.2.2) := by
  have hc := flow_commit city cities i1 c i3 h1 hv h3
  have hd : (unknown_city city cities [i1, c, i3]).1 =
      dirInsert cities (pyLower city)
        (pyTitle (pyStrip c), prefix_to_use (pyTitle (pyStrip c)) cities) := by
    rw [hc]
  refine ⟨?_, ?_, determine_pfx_eq_find _ _⟩
  · intro q hq
    rw [hd, dirGet_insert_self]
    simp [prefix_to_use, hq]
  · intro hq
    rw [hd, dirGet_insert_self]
    simp [prefix_to_use, hq]

/-- Witness for C2: adding Lolo with county "Missoula" inherits the
stored prefix 3 of the existing Missoula record; adding Lolo with the
fresh county "Gallatin" gets the "unknown" sentinel. -/
theorem c2_witness :
    dirGet (unknown_city (strCodes "Lolo")
        [(strCodes "missoula", (strCodes "Missoula", PrefixVal.int 3))]
        [strCodes "y", strCodes "Missoula", strCodes "y"]).1 (pyLower (strCodes "Lolo")) =
      some (pyTitle (pyStrip (strCodes "Missoula")), PrefixVal.int 3) ∧
    dirGet (unknown_city (strCodes "Lolo")
        [(strCodes "missoula", (strCodes "Missoula", PrefixVal.int 3))]
        [strCodes "y", strCodes "Gallatin", strCodes "y"]).1 (pyLower (strCodes "Lolo")) =
      some (pyTitle (pyStrip (strCodes "Gallatin")), PrefixVal.str wUnknown) :=
  ⟨(c2_prefix_inference [(strCodes "missoula", (strCodes "Missoula", PrefixVal.int 3))]
      (strCodes "Lolo") (strCodes "y") (strCodes "Missoula") (strCodes "y")
      (by decide) (by decide) (by decide)).1 (PrefixVal.int 3) (by decide),
   (c2_prefix_inference [(strCodes "missoula", (strCodes "Missoula", PrefixVal.int 3))]
      (strCodes "Lolo") (strCodes "y") (strCodes "Gallatin") (strCodes "y")
      (by decide) (by decide) (by decide)).2.1 (by decide)⟩

/-- Claim C9: every key the three inserting operations produce is
lowercase-normalized: the Reference Loader builds only lowercased keys,
and the User-Store Loader and the commit of the entry flow preserve the
invariant on any directory that has it. -/
theorem c9_lowercase_key_invariant
    (header : List Str) (rows : List (List Str)) (file : Option (List Str))
    (d d2 d3 : Dir) (city : Str) (inputs : List Str) :
    (load_initial_cities header rows = .ok d → lowerKeys d) ∧
    (lowerKeys d2 → load_user_cities file d2 = .ok d3 → lowerKeys d3) ∧
    (lowerKeys d2 → lowerKeys (unknown_city city d2 inputs).1) := by
  refine ⟨?_, ?_, ?_⟩
  · intro h
    exact loadInitGo_lowerKeys header rows [] d (fun e he => absurd he (List.not_mem_nil e)) h
  · intro h2 h3
    cases file with
    | none => exact Except.noConfusion h3
    | some lines => exact loadUserGo_lowerKeys lines d2 d3 h2 h3
  · intro h2
    exact runFlow_lowerKeys city inputs .wantAdd d2 h2

/-- Witness for C9: the invariant holds for the directory loaded from the
one-row reference file, survives merging one user line, and survives a
committed interactive add. -/
theorem c9_witness :
    lowerKeys [(strCodes "missoula", (strCodes "Missoula", PrefixVal.int 3))] ∧
    lowerKeys [(strCodes "missoula", (strCodes "Missoula", PrefixVal.int 3)),
               (strCodes "helena", (strCodes "Lewis And Clark", PrefixVal.str (strCodes "5")))] ∧
    lowerKeys (unknown_city (strCodes "Lolo")
        [(strCodes "missoula", (strCodes "Missoula", PrefixVal.int 3))]
        [strCodes "y", strCodes "Missoula", strCodes "y"]).1 :=
  ⟨(c9_lowercase_key_invariant [colCity, colCounty, colPfx]
      [[strCodes "Missoula", strCodes "Missoula", strCodes "3"]] none _ [] [] [] []).1 rfl,
   (c9_lowercase_key_invariant [] []
      (some [strCodes "Helena,Lewis And Clark,5"])
      [] [(strCodes "missoula", (strCodes "Missoula", PrefixVal.int 3))] _ [] []).2.1
      (by unfold lowerKeys; decide) rfl,
   (c9_lowercase_key_invariant [] [] none []
      [(strCodes "missoula", (strCodes "Missoula", PrefixVal.int 3))] []
      (strCodes "Lolo") [strCodes "y", strCodes "Missoula", strCodes "y"]).2.2
      (by unfold lowerKeys; decide)⟩

/-- Claim C8: the Reference Loader errors whenever a required column
(city, county, prefix) is absent from the header (and there is at least
one data row to process) or the prefix field of some row does not parse as an
int; on a well-formed file it returns Ok with a directory whose every
entry is keyed by the trimmed lowercased city of some row with value
(trimmed county, integer prefix), and the city key of every row is present. -/
theorem c8_reference_loader (header : List Str) (rows : List (List Str)) :
    ((header.findIdx? (fun x => x == colCity) = none ∨
      header.findIdx? (fun x => x == colCounty) = none ∨
      header.findIdx? (fun x => x == colPfx) = none) → rows ≠ [] →
       ∃ e, load_initial_cities header rows = .error e) ∧
    ((∃ row ∈ rows, ∃ pf, rowGet header row colPfx = .ok pf ∧ pyInt pf = none) →
       ∃ e, load_initial_cities header rows = .error e) ∧
    ((∀ row ∈ rows, rowWellFormed header row = true) →
       ∃ d, load_initial_cities header rows = .ok d ∧
         (∀ kv ∈ d, ∃ row ∈ rows, entryFromRow header row kv) ∧
         (∀ row ∈ rows, ∃ cs, rowGet header row colCity = .ok cs ∧
            (dirGet d (pyLower (pyStrip cs))).isSome)) := by
  refine ⟨?_, ?_, ?_⟩
  · intro h hne
    rcases rows with _ | ⟨r, rest⟩
    · exact absurd rfl hne
    · rcases loadInitRow_error_of_missing ([] : Dir) r h with ⟨e, he⟩
      exact ⟨e, by simp only [load_initial_cities, loadInitGo, he]⟩
  · intro h
    exact loadInitGo_error_of_badrow header rows [] h
  · intro h
    rcases loadInitGo_wf header rows [] h with ⟨d, hgo, hsound, _, hcompl⟩
    refine ⟨d, hgo, ?_, hcompl⟩
    intro kv hkv
    rcases hsound kv hkv with hkv2 | h2
    · exact absurd hkv2 (List.not_mem_nil _)
    · exact h2

/-- Witness for C8: a header missing the city column errors, a
non-numeric prefix field errors, and the well-formed one-row file loads
with the expected entry present. -/
theorem c8_witness :
    (∃ e, load_initial_cities [colCounty, colPfx]
        [[strCodes "Missoula", strCodes "3"]] = .error e) ∧
    (∃ e, load_initial_cities [colCity, colCounty, colPfx]
        [[strCodes "Missoula", strCodes "Missoula", strCodes "abc"]] = .error e) ∧
    (∃ d, load_initial_cities [colCity, colCounty, colPfx]
        [[strCodes " Missoula ", strCodes "Missoula", strCodes "3"]] = .ok d ∧
       (∀ kv ∈ d, ∃ row ∈ [[strCodes " Missoula ", strCodes "Missoula", strCodes "3"]],
          entryFromRow [colCity, colCounty, colPfx] row kv) ∧
       (∀ row ∈ [[strCodes " Missoula ", strCodes "Missoula", strCodes "3"]],
          ∃ cs, rowGet [colCity, colCounty, colPfx] row colCity = .ok cs ∧
            (dirGet d (pyLower (pyStrip cs))).isSome)) :=
  ⟨(c8_reference_loader [colCounty, colPfx] [[strCodes "Missoula", strCodes "3"]]).1
     (Or.inl (by decide)) (by decide),
   (c8_reference_loader [colCity, colCounty, colPfx]
      [[strCodes "Missoula", strCodes "Missoula", strCodes "abc"]]).2.1
     ⟨[strCodes "Missoula", strCodes "Missoula", strCodes "abc"], by decide,
      strCodes "abc", rfl, rfl⟩,
   (c8_reference_loader [colCity, colCounty, colPfx]
      [[strCodes " Missoula ", strCodes "Missoula", strCodes "3"]]).2.2
     (by decide)⟩

/-- Claim C1, counterexample: commit city Lolo with county "Missoula",
whose existing record has the integer prefix 3.  In memory Lolo gets
("Missoula", int 3), but the appended line "lolo,Missoula,3" reloads as
("Missoula", str "3") because the user-store loader keeps the prefix a
string, and in Python 3 != "3": the reloaded pair at key "lolo" differs
from the in-memory pair at commit time. -/
theorem c1_counterexample :
    dirGet (unknown_city (strCodes "Lolo")
        [(strCodes "missoula", (strCodes "Missoula", PrefixVal.int 3))]
        [strCodes "y", strCodes "Missoula", strCodes "y"]).1 (strCodes "lolo") =
      some (strCodes "Missoula", PrefixVal.int 3) ∧
    load_initial_cities [colCity, colCounty, colPfx]
        [[strCodes "Missoula", strCodes "Missoula", strCodes "3"]] =
      .ok [(strCodes "missoula", (strCodes "Missoula", PrefixVal.int 3))] ∧
    load_user_cities (some (unknown_city (strCodes "Lolo")
        [(strCodes "missoula", (strCodes "Missoula", PrefixVal.int 3))]
        [strCodes "y", strCodes "Missoula", strCodes "y"]).2.1)
        [(strCodes "missoula", (strCodes "Missoula", PrefixVal.int 3))] =
      .ok [(strCodes "missoula", (strCodes "Missoula", PrefixVal.int 3)),
           (strCodes "lolo", (strCodes "Missoula", PrefixVal.str (strCodes "3")))] ∧
    dirGet [(strCodes "missoula", (strCodes "Missoula", PrefixVal.int 3)),
            (strCodes "lolo", (strCodes "Missoula", PrefixVal.str (strCodes "3")))]
        (strCodes "lolo") ≠
      dirGet (unknown_city (strCodes "Lolo")
        [(strCodes "missoula", (strCodes "Missoula", PrefixVal.int 3))]
        [strCodes "y", strCodes "Missoula", strCodes "y"]).1 (strCodes "lolo") := by
  refine ⟨by decide, rfl, rfl, by decide⟩

/-- Claim C1, amended: committing a new city through the entry flow and
reloading both data sources reproduces, at the lowercased city key, the
same county and the string rendering of the committed prefix: the pair is
identical when the committed prefix was already a string (for example the
"unknown" sentinel), and an inherited integer prefix n comes back as the
decimal string str(n).  The hypotheses record what holds on the main-loop
path: the inputs confirm twice, the county name validates, and the city
key and stored fields are comma-free and whitespace-trimmed. -/
theorem c1_roundtrip_amended
    (header : List Str) (rows : List (List Str)) (oldlines : List Str)
    (base d : Dir) (city i1 c i3 cn : Str) (p : PrefixVal)
    (hbase : load_initial_cities header rows = .ok base)
    (hload : load_user_cities (some oldlines) base = .ok d)
    (h1 : pyLower i1 = wY) (h3 : pyLower i3 = wY)
    (hcn : cn = pyTitle (pyStrip c))
    (hv : validate_name cn = true)
    (hp : p = prefix_to_use cn d)
    (hcity_ne : pyLower city ≠ [])
    (hcity_strip : pyStrip (pyLower city) = pyLower city)
    (hcity_comma : ¬ 44 ∈ pyLower city)
    (hcn_strip : pyStrip cn = cn) (hcn_comma : ¬ 44 ∈ cn)
    (hpf_strip : pyStrip (prefixStr p) = prefixStr p)
    (hpf_comma : ¬ 44 ∈ prefixStr p) :
    load_initial_cities header rows = .ok base ∧
    dirGet (unknown_city city d [i1, c, i3]).1 (pyLower city) = some (cn, p) ∧
    load_user_cities (some (oldlines ++ (unknown_city city d [i1, c, i3]).2.1)) base =
      .ok (dirInsert d (pyLower city) (cn, .str (prefixStr p))) ∧
    dirGet (dirInsert d (pyLower city) (cn, .str (prefixStr p))) (pyLower city) =
      some (cn, .str (prefixStr p)) := by
  subst hcn
  subst hp
  have hc := flow_commit city d i1 c i3 h1 hv h3
  have hd1 : (unknown_city city d [i1, c, i3]).1 =
      dirInsert d (pyLower city)
        (pyTitle (pyStrip c), prefix_to_use (pyTitle (pyStrip c)) d) := by rw [hc]
  have hw : (unknown_city city d [i1, c, i3]).2.1 =
      [saveLine (pyLower city) (pyTitle (pyStrip c))
         (prefix_to_use (pyTitle (pyStrip c)) d)] := by rw [hc]
  refine ⟨hbase, ?_, ?_, dirGet_insert_self _ _ _⟩
  · rw [hd1, dirGet_insert_self]
  · rw [hw]
    simp only [load_user_cities] at hload ⊢
    rw [loadUserGo_append oldlines _ base d hload]
    rw [loadUserGo_saveLine d (pyLower city) (pyTitle (pyStrip c))
          (prefix_to_use (pyTitle (pyStrip c)) d)
          hcity_strip hcn_strip hpf_strip hcity_comma hcn_comma hpf_comma hcity_ne]
    rw [pyLower_idem]

/-- Witness for C1 (amended): the Lolo commit with inherited integer
prefix 3 reloads as the pair ("Missoula", "3") while memory held
("Missoula", 3). -/
theorem c1_witness :
    load_initial_cities [colCity, colCounty, colPfx]
        [[strCodes "Missoula", strCodes "Missoula", strCodes "3"]] =
      .ok [(strCodes "missoula", (strCodes "Missoula", PrefixVal.int 3))] ∧
    dirGet (unknown_city (strCodes "Lolo")
        [(strCodes "missoula", (strCodes "Missoula", PrefixVal.int 3))]
        [strCodes "y", strCodes "Missoula", strCodes "y"]).1 (pyLower (strCodes "Lolo")) =
      some (strCodes "Missoula", PrefixVal.int 3) ∧
    load_user_cities (some ([] ++ (unknown_city (strCodes "Lolo")
        [(strCodes "missoula", (strCodes "Missoula", PrefixVal.int 3))]
        [strCodes "y", strCodes "Missoula", strCodes "y"]).2.1))
        [(strCodes "missoula", (strCodes "Missoula", PrefixVal.int 3))] =
      .ok (dirInsert [(strCodes "missoula", (strCodes "Missoula", PrefixVal.int 3))]
            (pyLower (strCodes "Lolo"))
            (strCodes "Missoula", PrefixVal.str (prefixStr (PrefixVal.int 3)))) ∧
    dirGet (dirInsert [(strCodes "missoula", (strCodes "Missoula", PrefixVal.int 3))]
            (pyLower (strCodes "Lolo"))
            (strCodes "Missoula", PrefixVal.str (prefixStr (PrefixVal.int 3))))
        (pyLower (strCodes "Lolo")) =
      some (strCodes "Missoula", PrefixVal.str (prefixStr (PrefixVal.int 3))) :=
  c1_roundtrip_amended [colCity, colCounty, colPfx]
    [[strCodes "Missoula", strCodes "Missoula", strCodes "3"]] []
    [(strCodes "missoula", (strCodes "Missoula", PrefixVal.int 3))]
    [(strCodes "missoula", (strCodes "Missoula", PrefixVal.int 3))]
    (strCodes "Lolo") (strCodes "y") (strCodes "Missoula") (strCodes "y")
    (strCodes "Missoula") (PrefixVal.int 3)
    rfl rfl (by decide) (by decide) (by decide) (by decide) (by decide)
    (by decide) (by decide) (by decide) (by decide) (by decide) (by decide) (by decide)
